import Mathlib

/-!
Verification of the waveparser library (RIFF/WAVE header parsing and
PCM sample decoding) against its natural-language specification.

Byte sequences are modelled as `List Nat` (each entry one byte,
0 ≤ b < 256 in well-formed data).  Go's multi-value returns
`(value, error)` are modelled as explicit pairs or `Except`.
-/

namespace Waveparser

/-- Little-endian 16-bit assembly of two bytes
(`binary.LittleEndian.Uint16`). -/
def u16le (b0 b1 : Nat) : Nat := b0 + 256 * b1

/-- Little-endian 32-bit assembly of four bytes
(`binary.LittleEndian.Uint32`). -/
def u32le (b0 b1 b2 b3 : Nat) : Nat :=
  b0 + 256 * b1 + 65536 * b2 + 16777216 * b3

/-- Go's `int16(uint16 value)` reinterpretation: values ≥ 2^15 wrap to
negative. -/
def int16ofUint16 (v : Nat) : Int :=
  if v < 32768 then (v : Int) else (v : Int) - 65536

/-- The loop body of `Wav.Int16LESamples`: consume the payload two bytes
at a time (`for i := 0; i < len(w.Data)-1; i += 2`), turning each
2-byte little-endian group into a signed 16-bit sample.  A trailing
odd byte does not form a group and is dropped, exactly as the loop
bound `i < len-1` drops it. -/
def int16dec : List Nat → List Int
  | [] => []
  | [_] => []
  | b0 :: b1 :: rest => int16ofUint16 (u16le b0 b1) :: int16dec rest

/-- Embedding of `Wav.Int16LESamples`, which returns `([]int16, error)`
with the error component literally `nil` on every path. -/
def Int16LESamples (data : List Nat) : List Int × Option String :=
  (int16dec data, none)

/-- Encoder used by the round-trip claim: an int16 value written as two
little-endian bytes (the inverse direction of the decoder, as the spec
describes encoding a known sequence of int16 values). -/
def encodeInt16LE (v : Int) : List Nat :=
  [(v % 65536).toNat % 256, (v % 65536).toNat / 256]

lemma encode_decode_int16 (v : Int) (h1 : -32768 ≤ v) (h2 : v < 32768) :
    int16ofUint16 (u16le ((v % 65536).toNat % 256) ((v % 65536).toNat / 256)) = v := by
  unfold int16ofUint16 u16le
  split <;> omega

/-- C4: For every payload of length n, the integer decoder returns
exactly ⌊n/2⌋ samples; sample i is the signed 16-bit little-endian
integer formed from bytes 2i and 2i+1; a 1-byte payload yields the
empty sequence. -/
theorem int16_decode_spec (data : List Nat) :
    (Int16LESamples data).1.length = data.length / 2 ∧
    (∀ i, i < data.length / 2 →
      (Int16LESamples data).1[i]? =
        some (int16ofUint16 (u16le (data.getD (2 * i) 0) (data.getD (2 * i + 1) 0)))) ∧
    (∀ b : Nat, (Int16LESamples [b]).1 = []) := by
  refine ⟨?_, ?_, fun _ => rfl⟩
  · show (int16dec data).length = data.length / 2
    induction data using int16dec.induct with
    | case1 => simp [int16dec]
    | case2 b => simp [int16dec]
    | case3 b0 b1 rest ih =>
        simp only [int16dec, List.length_cons, ih]
        omega
  · show ∀ i, i < data.length / 2 → (int16dec data)[i]? = _
    induction data using int16dec.induct with
    | case1 =>
        intro i hi
        simp only [List.length_nil] at hi
        exact absurd hi (by omega)
    | case2 b =>
        intro i hi
        simp only [List.length_cons, List.length_nil] at hi
        exact absurd hi (by omega)
    | case3 b0 b1 rest ih =>
        intro i hi
        match i with
        | 0 => simp [int16dec]
        | j + 1 =>
            have hj : j < rest.length / 2 := by
              simp only [List.length_cons] at hi
              omega
            have h2 : 2 * (j + 1) = 2 * j + 1 + 1 := by ring
            rw [h2]
            simp only [int16dec, List.getElem?_cons_succ, List.getD_cons_succ]
            exact ih j hj

/-- Witness for C4 at the concrete payload [52, 1, 0, 128]. -/
theorem int16_decode_spec_witness :
    1 < ([52, 1, 0, 128] : List Nat).length / 2 ∧
    (Int16LESamples [52, 1, 0, 128]).1[1]? =
      some (int16ofUint16 (u16le (([52, 1, 0, 128] : List Nat).getD (2 * 1) 0)
        (([52, 1, 0, 128] : List Nat).getD (2 * 1 + 1) 0))) :=
  ⟨by decide, (int16_decode_spec [52, 1, 0, 128]).2.1 1 (by decide)⟩

/-- C10: the integer decoder never fails — the error component of its
result is nil for every payload, including empty and odd-length ones. -/
theorem int16_never_fails (data : List Nat) : (Int16LESamples data).2 = none := rfl

/-- C7: encoding each int16 value of a sequence as two little-endian
bytes, concatenating in order, and decoding with the integer decoder
reproduces the original sequence. -/
theorem int16_roundtrip (vs : List Int) (h : ∀ v ∈ vs, -32768 ≤ v ∧ v < 32768) :
    (Int16LESamples ((vs.map encodeInt16LE).flatten)).1 = vs := by
  show int16dec ((vs.map encodeInt16LE).flatten) = vs
  induction vs with
  | nil => rfl
  | cons v rest ih =>
      have hv := h v (List.mem_cons_self v rest)
      have hrest : ∀ w ∈ rest, -32768 ≤ w ∧ w < 32768 :=
        fun w hw => h w (List.mem_cons_of_mem v hw)
      simp only [List.map_cons, List.flatten_cons, encodeInt16LE, List.cons_append,
        List.nil_append, List.append_eq, int16dec, ih hrest]
      rw [encode_decode_int16 v hv.1 hv.2]

/-- Witness for C7 at a concrete sequence covering both signs and both
range endpoints. -/
theorem int16_roundtrip_witness :
    (∀ v ∈ ([1, -1, 32767, -32768, 0] : List Int), -32768 ≤ v ∧ v < 32768) ∧
    (Int16LESamples ((([1, -1, 32767, -32768, 0] : List Int).map encodeInt16LE).flatten)).1 =
      [1, -1, 32767, -32768, 0] :=
  ⟨by decide, int16_roundtrip [1, -1, 32767, -32768, 0] (by decide)⟩

/-! ### Float decoder (`Wav.Float32LESamples`)

A 32-bit little-endian group is an IEEE-754 binary32 value.  Every
finite binary32 value is an integer multiple of 2^(-149), so finite
values are represented exactly by that integer (`fin k` stands for the
real value k / 2^149); infinities and NaN are separate constructors.
The Go code compares each decoded sample against the constants
`minval = -1.0` and `maxval = 1.0`, whose scaled representations are
∓2^149. -/

/-- An IEEE-754 binary32 value: NaN, a signed infinity, or a finite
value represented as an exact integer multiple of 2^(-149). -/
inductive F32
  | nan
  | inf (neg : Bool)
  | fin (scaled : Int)
deriving DecidableEq

/-- Value of a binary32 bit pattern (sign bit 31, exponent bits 23–30,
mantissa bits 0–22).  Normal values ±(2^23 + m)·2^(e-150) scale to
±(2^23 + m)·2^(e-1); subnormal values ±m·2^(-149) scale to ±m. -/
def f32val (bits : Nat) : F32 :=
  let s : Bool := bits / 2 ^ 31 % 2 == 1
  let e : Nat := bits / 2 ^ 23 % 256
  let m : Nat := bits % 2 ^ 23
  if e = 255 then (if m = 0 then .inf s else .nan)
  else
    let mag : Nat := if e = 0 then m else (2 ^ 23 + m) * 2 ^ (e - 1)
    .fin (if s then -(mag : Int) else (mag : Int))

/-- IEEE-754 `<` on binary32 values: NaN is unordered (compares false
against everything), -∞ is below and +∞ above every other value, and
finite values compare by their exact scaled integers. -/
def f32lt : F32 → F32 → Bool
  | .nan, _ => false
  | _, .nan => false
  | .inf true, .inf true => false
  | .inf true, _ => true
  | .inf false, _ => false
  | .fin _, .inf false => true
  | .fin _, .inf true => false
  | .fin a, .fin b => a < b

/-- The range check of the Go code, `sample < minval || sample > maxval`
with `minval = -1.0` and `maxval = 1.0` (scaled: ∓2^149). -/
def f32OutOfRange (bits : Nat) : Bool :=
  f32lt (f32val bits) (.fin (-((2 ^ 149 : Nat) : Int))) ||
    f32lt (.fin ((2 ^ 149 : Nat) : Int)) (f32val bits)

/-- Error outcomes of `Wav.Float32LESamples`: a sample outside
[-1.0, 1.0] (carrying the offending bit pattern), or a failed
`binary.Read` (an `io.ErrUnexpectedEOF` from a trailing partial
group). -/
inductive FloatDecodeError
  | sampleOutOfRange (bits : Nat)
  | readFailure
deriving DecidableEq

/-- Embedding of `Wav.Float32LESamples`: read 4-byte little-endian
groups in a loop; a successful read of an out-of-range sample aborts
with an error; a read that hits the end of the payload exactly
(`io.EOF`) ends the loop successfully, while a read that gets only 1–3
of the 4 requested bytes (`io.ErrUnexpectedEOF` ≠ `io.EOF`) makes the
function return an error.  Samples are returned as their bit
patterns. -/
def float32dec : List Nat → Except FloatDecodeError (List Nat)
  | [] => .ok []
  | [_] => .error .readFailure
  | [_, _] => .error .readFailure
  | [_, _, _] => .error .readFailure
  | b0 :: b1 :: b2 :: b3 :: rest =>
      if f32OutOfRange (u32le b0 b1 b2 b3) then
        .error (.sampleOutOfRange (u32le b0 b1 b2 b3))
      else Except.map (fun l => u32le b0 b1 b2 b3 :: l) (float32dec rest)

/-- Name alias matching the Go method. -/
def Float32LESamples (data : List Nat) : Except FloatDecodeError (List Nat) :=
  float32dec data

/-- The complete 4-byte little-endian groups of a payload, as bit
patterns; trailing 1–3 bytes form no group. -/
def f32groups : List Nat → List Nat
  | b0 :: b1 :: b2 :: b3 :: rest => u32le b0 b1 b2 b3 :: f32groups rest
  | _ => []

/-- Induction principle matching the 4-byte grouping of the float
decoder: four explicit base cases and a step removing one complete
group. -/
theorem four_cons_induction (motive : List Nat → Prop) (h0 : motive [])
    (h1 : ∀ b, motive [b]) (h2 : ∀ b0 b1, motive [b0, b1])
    (h3 : ∀ b0 b1 b2, motive [b0, b1, b2])
    (h4 : ∀ b0 b1 b2 b3 rest, motive rest → motive (b0 :: b1 :: b2 :: b3 :: rest)) :
    ∀ l, motive l
  | [] => h0
  | [b] => h1 b
  | [b0, b1] => h2 b0 b1
  | [b0, b1, b2] => h3 b0 b1 b2
  | b0 :: b1 :: b2 :: b3 :: rest =>
      h4 b0 b1 b2 b3 rest (four_cons_induction motive h0 h1 h2 h3 h4 rest)

/-- C1 counterexample: a payload of exactly 3 bytes makes the float
decoder fail with a read error (io.ErrUnexpectedEOF ≠ io.EOF), not
return an empty sequence as the claim states. -/
theorem float32_three_byte_payload_errs :
    Float32LESamples [0, 0, 0] = .error .readFailure ∧
    Float32LESamples [0, 0, 0] ≠ .ok [] := by
  refine ⟨rfl, fun hcontra => ?_⟩
  simp [Float32LESamples, float32dec] at hcontra

/-- C1 amended: for every payload whose length is not a multiple of 4
the float decoder fails with an error (the trailing partial group makes
`binary.Read` return `io.ErrUnexpectedEOF`, which is not `io.EOF`);
the empty payload still yields an empty sequence, not an error. -/
theorem float32_partial_group_errors (data : List Nat) :
    (data.length % 4 ≠ 0 → ∃ e, Float32LESamples data = .error e) ∧
    Float32LESamples ([] : List Nat) = .ok [] := by
  refine ⟨?_, rfl⟩
  show data.length % 4 ≠ 0 → ∃ e, float32dec data = .error e
  induction data using four_cons_induction with
  | h0 => intro h; simp at h
  | h1 b => intro _; exact ⟨.readFailure, rfl⟩
  | h2 b0 b1 => intro _; exact ⟨.readFailure, rfl⟩
  | h3 b0 b1 b2 => intro _; exact ⟨.readFailure, rfl⟩
  | h4 b0 b1 b2 b3 rest ih =>
      intro h
      have hr : rest.length % 4 ≠ 0 := by
        simp only [List.length_cons] at h
        omega
      obtain ⟨e, he⟩ := ih hr
      by_cases hor : f32OutOfRange (u32le b0 b1 b2 b3)
      · exact ⟨.sampleOutOfRange (u32le b0 b1 b2 b3), by simp [float32dec, hor]⟩
      · exact ⟨e, by simp [float32dec, hor, he, Except.map]⟩

/-- Witness for C1 (amended) at the 3-byte payload. -/
theorem float32_partial_group_errors_witness :
    ([0, 0, 0] : List Nat).length % 4 ≠ 0 ∧
    (∃ e, Float32LESamples [0, 0, 0] = .error e) ∧
    Float32LESamples ([] : List Nat) = .ok [] :=
  ⟨by decide, (float32_partial_group_errors [0, 0, 0]).1 (by decide),
    (float32_partial_group_errors []).2⟩

/-- C3 counterexample: a 5-byte payload whose only complete 4-byte
group decodes to 0.0 (inside [-1.0, 1.0]) still makes the float decoder
return an error, refuting the claimed "error iff some reached complete
group is out of range". -/
theorem float32_inrange_partial_payload_errs :
    Float32LESamples [0, 0, 0, 0, 0] = .error .readFailure ∧
    (f32groups [0, 0, 0, 0, 0]).all (fun g => !f32OutOfRange g) = true := by
  constructor
  · rfl
  · decide

/-- C3 amended: restricted to payloads whose length is a multiple of 4,
the float decoder fails iff some 4-byte little-endian group is strictly
outside [-1.0, 1.0] under IEEE-754 comparison; the first such group
aborts the decode, the error identifies the offending value and no
samples are delivered, and when every group is in range the full
in-order sequence of decoded values is returned. -/
theorem float32_decode_characterization (data : List Nat) (h : data.length % 4 = 0) :
    Float32LESamples data =
      match (f32groups data).find? f32OutOfRange with
      | some g => .error (.sampleOutOfRange g)
      | none => .ok (f32groups data) := by
  show float32dec data = _
  induction data using four_cons_induction with
  | h0 => rfl
  | h1 b => simp at h
  | h2 b0 b1 => simp at h
  | h3 b0 b1 b2 => simp at h
  | h4 b0 b1 b2 b3 rest ih =>
      have hr : rest.length % 4 = 0 := by
        simp only [List.length_cons] at h
        omega
      by_cases hor : f32OutOfRange (u32le b0 b1 b2 b3)
      · simp [float32dec, f32groups, hor, List.find?_cons_of_pos]
      · have hor' : f32OutOfRange (u32le b0 b1 b2 b3) = false := by
          simpa using hor
        simp only [float32dec, hor', Bool.false_eq_true, if_false, f32groups]
        rw [List.find?_cons_of_neg _ (by simp [hor']), ih hr]
        cases hfind : (f32groups rest).find? f32OutOfRange with
        | none => simp [Except.map]
        | some g => simp [Except.map]

/-- Witness for C3 (amended): an 8-byte payload whose second group is
the bit pattern of 1.5 (out of range) aborts with that value, applied
through the characterization theorem. -/
theorem float32_decode_characterization_witness :
    ([0, 0, 0, 0, 0, 0, 192, 63] : List Nat).length % 4 = 0 ∧
    Float32LESamples [0, 0, 0, 0, 0, 0, 192, 63] =
      match (f32groups [0, 0, 0, 0, 0, 0, 192, 63]).find? f32OutOfRange with
      | some g => .error (.sampleOutOfRange g)
      | none => .ok (f32groups [0, 0, 0, 0, 0, 0, 192, 63]) :=
  ⟨by decide, float32_decode_characterization [0, 0, 0, 0, 0, 0, 192, 63] (by decide)⟩

/-! ### Header parser (`parseHeader`, `parseRIFFHeader`)

The `io.ReadSeeker` is modelled as the full byte sequence plus an
explicit position.  A `binary.Read` of n bytes succeeds iff n bytes are
available from the current position (a short read gives
`io.ErrUnexpectedEOF`, an empty one `io.EOF`; both are read failures
for the parser).  `Seek(k, SEEK_CUR)` always succeeds and moves the
position forward by k, also past the end of the data, exactly as a file
seek does. -/

/-- Little-endian 16-bit value of the first two entries of a list. -/
def u16leL (l : List Nat) : Nat := u16le (l.getD 0 0) (l.getD 1 0)

/-- Little-endian 32-bit value of the first four entries of a list. -/
def u32leL (l : List Nat) : Nat := u32le (l.getD 0 0) (l.getD 1 0) (l.getD 2 0) (l.getD 3 0)

/-- Read n bytes at `pos`: some if fully available, none on any short
or empty read (both are `binary.Read` failures). -/
def readBytes (data : List Nat) (pos n : Nat) : Option (List Nat) :=
  if pos + n ≤ data.length then some ((data.drop pos).take n) else none

/-- ASCII bytes of "RIFF". -/
def riffTag : List Nat := [82, 73, 70, 70]

/-- ASCII bytes of "fmt " (trailing space). -/
def fmtTag : List Nat := [102, 109, 116, 32]

/-- ASCII bytes of "data". -/
def dataTag : List Nat := [100, 97, 116, 97]

structure RiffHeader where
  ident : List Nat
  chunkSize : Nat
  fileType : List Nat
deriving DecidableEq

structure RiffChunkFmt where
  lengthOfHeader : Nat
  audioFormat : Nat
  numChannels : Nat
  sampleRate : Nat
  bytesPerSec : Nat
  bytesPerBloc : Nat
  bitsPerSample : Nat
deriving DecidableEq

structure WavHeader where
  riffHdr : RiffHeader
  riffChunkFmt : RiffChunkFmt
  firstSamplePos : Nat
  dataBlockSize : Nat
deriving DecidableEq

/-- Error kinds of the parser, matching the distinct `fmt.Errorf` calls
of the Go code; every `binary.Read`/seek failure is a read failure. -/
inductive ParseError
  | readFail
  | invalidSignature (ident : List Nat)
  | unexpectedChunk (tag : List Nat)
  | unsupportedFormat (tag : Nat)
deriving DecidableEq

def WaveFormatPCM : Nat := 1
def WaveFormatIEEEFloat : Nat := 3
def WaveFormatALAW : Nat := 6
def WaveFormatMULAW : Nat := 7
def WaveFormatExtensible : Nat := 0xFFFE

/-- Embedding of `isValidWavFormat`: membership in the literal list the
Go loop ranges over (note: `WaveFormatExtensible` is not in it). -/
def isValidWavFormat (f : Nat) : Bool :=
  [WaveFormatMULAW, WaveFormatALAW, WaveFormatIEEEFloat, WaveFormatPCM].any (fun v => f == v)

/-- Embedding of `parseRIFFHeader`: one 12-byte struct read, then the
"RIFF" check; returns the header and the position after it. -/
def parseRIFFHeader (data : List Nat) (pos : Nat) : Except ParseError (RiffHeader × Nat) :=
  match readBytes data pos 12 with
  | none => .error .readFail
  | some bs =>
      let hdr : RiffHeader :=
        ⟨bs.take 4, u32leL ((bs.drop 4).take 4), (bs.drop 8).take 4⟩
      if hdr.ident ≠ riffTag then .error (.invalidSignature hdr.ident)
      else .ok (hdr, pos + 12)

/-- Embedding of the chunk-walk loop of `parseHeader`: read a 4-byte
tag and a 4-byte little-endian size; stop at "data" (returning the
position after the 8 chunk-header bytes and the declared size), else
seek forward by the declared size and repeat.  The loop is written with
explicit fuel; each iteration recurses only after two successful reads,
which require `pos + 8 ≤ data.length` and advance the position by at
least 8, so the fuel `data.length + 1` used by `parseHeader` can never
be exhausted. -/
def findData (data : List Nat) : Nat → Nat → Except ParseError (Nat × Nat)
  | 0, _ => .error .readFail
  | fuel + 1, pos =>
      match readBytes data pos 4 with
      | none => .error .readFail
      | some tag =>
          match readBytes data (pos + 4) 4 with
          | none => .error .readFail
          | some szb =>
              if tag = dataTag then .ok (pos + 8, u32leL szb)
              else findData data fuel (pos + 8 + u32leL szb)

/-- Embedding of `parseHeader`: RIFF header, "fmt " tag, 20-byte format
struct (4-byte declared header length + 16-byte body), format-tag
validity check, optional extended-format skip, then the chunk walk.
The final position is stored as `uint32(pos)`: the int64 seek position
truncated modulo 2^32 into the uint32 `FirstSamplePos` field. -/
def parseHeader (data : List Nat) : Except ParseError WavHeader :=
  match parseRIFFHeader data 0 with
  | .error e => .error e
  | .ok (riffhdr, pos1) =>
      match readBytes data pos1 4 with
      | none => .error .readFail
      | some chunk =>
          if chunk ≠ fmtTag then .error (.unexpectedChunk chunk)
          else
            match readBytes data (pos1 + 4) 20 with
            | none => .error .readFail
            | some fb =>
                let chunkFmt : RiffChunkFmt :=
                  { lengthOfHeader := u32leL (fb.take 4)
                    audioFormat := u16leL ((fb.drop 4).take 2)
                    numChannels := u16leL ((fb.drop 6).take 2)
                    sampleRate := u32leL ((fb.drop 8).take 4)
                    bytesPerSec := u32leL ((fb.drop 12).take 4)
                    bytesPerBloc := u16leL ((fb.drop 16).take 2)
                    bitsPerSample := u16leL ((fb.drop 18).take 2) }
                if ¬ isValidWavFormat chunkFmt.audioFormat then
                  .error (.unsupportedFormat chunkFmt.audioFormat)
                else
                  match
                    if chunkFmt.lengthOfHeader ≠ 16 then
                      match readBytes data (pos1 + 24) 2 with
                      | none => .error .readFail
                      | some eb => .ok (pos1 + 24 + 2 + u16leL eb)
                    else (.ok (pos1 + 24) : Except ParseError Nat)
                  with
                  | .error e => .error e
                  | .ok pos2 =>
                      match findData data (data.length + 1) pos2 with
                      | .error e => .error e
                      | .ok (pos3, size) =>
                          .ok { riffHdr := riffhdr, riffChunkFmt := chunkFmt,
                                firstSamplePos := pos3 % 4294967296,
                                dataBlockSize := size }

/-- Reading at a position that is exactly the length of a known
preceding segment returns exactly the next segment. -/
lemma readBytes_exact (data pre mid post : List Nat) (n pos : Nat)
    (hdata : data = pre ++ (mid ++ post)) (hpos : pos = pre.length)
    (hn : mid.length = n) :
    readBytes data pos n = some mid := by
  subst hdata hpos hn
  unfold readBytes
  rw [if_pos (by simp), List.drop_left, List.take_left]

/-- Reading past the available bytes fails. -/
lemma readBytes_short (data : List Nat) (pos n : Nat) (h : data.length < pos + n) :
    readBytes data pos n = none := by
  unfold readBytes
  rw [if_neg (by omega)]

lemma take_eq_self_of_length (l : List Nat) (n : Nat) (h : l.length = n) :
    l.take n = l := by
  subst h
  exact List.take_length l

lemma parseRIFFHeader_invalid (data pre id4 cs4 ft4 post : List Nat) (pos : Nat)
    (hdata : data = pre ++ ((id4 ++ (cs4 ++ ft4)) ++ post)) (hpos : pos = pre.length)
    (hid : id4.length = 4) (hcs : cs4.length = 4) (hft : ft4.length = 4)
    (hne : id4 ≠ riffTag) :
    parseRIFFHeader data pos = .error (.invalidSignature id4) := by
  unfold parseRIFFHeader
  rw [readBytes_exact data pre (id4 ++ (cs4 ++ ft4)) post 12 pos
    (by rw [hdata]) hpos (by simp [hid, hcs, hft])]
  simp only [List.take_left' hid]
  rw [if_pos hne]

lemma parseRIFFHeader_valid (data pre cs4 ft4 post : List Nat) (pos : Nat)
    (hdata : data = pre ++ ((riffTag ++ (cs4 ++ ft4)) ++ post)) (hpos : pos = pre.length)
    (hcs : cs4.length = 4) (hft : ft4.length = 4) :
    parseRIFFHeader data pos = .ok (⟨riffTag, u32leL cs4, ft4⟩, pos + 12) := by
  unfold parseRIFFHeader
  rw [readBytes_exact data pre (riffTag ++ (cs4 ++ ft4)) post 12 pos
    (by rw [hdata]) hpos (by simp [riffTag, hcs, hft])]
  simp only [List.take_left' (show riffTag.length = 4 by simp [riffTag])]
  rw [if_neg (by simp)]
  have hdrop4 : (riffTag ++ (cs4 ++ ft4)).drop 4 = cs4 ++ ft4 :=
    List.drop_left' (by simp [riffTag])
  have hdrop8 : (riffTag ++ (cs4 ++ ft4)).drop 8 = ft4 := by
    rw [show riffTag ++ (cs4 ++ ft4) = (riffTag ++ cs4) ++ ft4 from by
      rw [List.append_assoc]]
    exact List.drop_left' (by simp [riffTag, hcs])
  rw [hdrop4, hdrop8, List.take_left' hcs, take_eq_self_of_length ft4 4 hft]

/-- C8: parseHeader fails with InvalidSignature whenever the first 4
bytes of a (12-byte-header-bearing) input are not exactly "RIFF", for
any later content; given a well-formed RIFF header it fails with
UnexpectedChunk whenever the next 4-byte chunk tag is not exactly
"fmt " (trailing space), for any later content — so each failure
happens before any later parsing step runs. -/
theorem signature_and_fmt_tag_errors :
    (∀ (id4 cs4 ft4 rest : List Nat), id4.length = 4 → cs4.length = 4 →
      ft4.length = 4 → id4 ≠ riffTag →
      parseHeader (id4 ++ (cs4 ++ (ft4 ++ rest))) = .error (.invalidSignature id4)) ∧
    (∀ (cs4 ft4 tag4 rest : List Nat), cs4.length = 4 → ft4.length = 4 →
      tag4.length = 4 → tag4 ≠ fmtTag →
      parseHeader (riffTag ++ (cs4 ++ (ft4 ++ (tag4 ++ rest)))) =
        .error (.unexpectedChunk tag4)) := by
  constructor
  · intro id4 cs4 ft4 rest hid hcs hft hne
    unfold parseHeader
    rw [parseRIFFHeader_invalid (id4 ++ (cs4 ++ (ft4 ++ rest))) [] id4 cs4 ft4 rest 0
      (by simp) rfl hid hcs hft hne]
  · intro cs4 ft4 tag4 rest hcs hft htag hne
    unfold parseHeader
    rw [parseRIFFHeader_valid (riffTag ++ (cs4 ++ (ft4 ++ (tag4 ++ rest)))) [] cs4 ft4
      (tag4 ++ rest) 0 (by simp) rfl hcs hft]
    dsimp only
    rw [readBytes_exact (riffTag ++ (cs4 ++ (ft4 ++ (tag4 ++ rest))))
      (riffTag ++ (cs4 ++ ft4)) tag4 rest 4 (0 + 12)
      (by simp) (by simp [riffTag, hcs, hft]) htag]
    dsimp only
    rw [if_pos hne]

/-- Four little-endian bytes of a 32-bit value (the layout the chunk
walk reads with `u32leL`). -/
def u32bytes (n : Nat) : List Nat :=
  [n % 256, n / 256 % 256, n / 65536 % 256, n / 16777216 % 256]

lemma u32leL_u32bytes (n : Nat) (h : n < 4294967296) : u32leL (u32bytes n) = n := by
  simp only [u32bytes, u32leL, u32le, List.getD_cons_zero, List.getD_cons_succ]
  omega

/-- A RIFF chunk laid out on the wire: 4-byte tag, 4-byte little-endian
size, then exactly that many payload bytes. -/
def encodeChunk (tag payload : List Nat) : List Nat :=
  tag ++ (u32bytes payload.length ++ payload)

def encodeChunks : List (List Nat × List Nat) → List Nat
  | [] => []
  | c :: cs => encodeChunk c.1 c.2 ++ encodeChunks cs

lemma encodeChunks_length_ge (chunks : List (List Nat × List Nat)) :
    chunks.length ≤ (encodeChunks chunks).length := by
  induction chunks with
  | nil => simp [encodeChunks]
  | cons c cs ih =>
      simp only [encodeChunks, encodeChunk, u32bytes, List.length_append, List.length_cons]
      omega

/-- One iteration of the chunk walk that lands directly on "data". -/
lemma findData_here (data szb : List Nat) (fuel pos : Nat)
    (htag : readBytes data pos 4 = some dataTag)
    (hszb : readBytes data (pos + 4) 4 = some szb)
    (hfuel : 0 < fuel) :
    findData data fuel pos = .ok (pos + 8, u32leL szb) := by
  cases fuel with
  | zero => omega
  | succ f =>
      unfold findData
      rw [htag, hszb]
      dsimp only
      rw [if_pos rfl]

/-- The chunk walk skips every non-"data" chunk by exactly its declared
size and stops at the "data" chunk header. -/
lemma findData_skips (data : List Nat) (chunks : List (List Nat × List Nat)) :
    ∀ (pre post szb : List Nat) (fuel : Nat),
    (∀ c ∈ chunks, c.1.length = 4 ∧ c.1 ≠ dataTag ∧ c.2.length < 4294967296) →
    data = pre ++ (encodeChunks chunks ++ (dataTag ++ (szb ++ post))) →
    szb.length = 4 →
    chunks.length < fuel →
    findData data fuel pre.length =
      .ok (pre.length + (encodeChunks chunks).length + 8, u32leL szb) := by
  induction chunks with
  | nil =>
      intro pre post szb fuel _ hdata hszb hfuel
      rw [findData_here data szb fuel pre.length
        (readBytes_exact data pre dataTag (szb ++ post) 4 pre.length
          (by simp [hdata, encodeChunks]) rfl (by simp [dataTag]))
        (readBytes_exact data (pre ++ dataTag) szb post 4 (pre.length + 4)
          (by simp [hdata, encodeChunks, List.append_assoc]) (by simp [dataTag]) hszb)
        (by omega)]
      simp [encodeChunks]
  | cons c cs ih =>
      intro pre post szb fuel hchunks hdata hszb hfuel
      obtain ⟨hc1, hcne, hclt⟩ := hchunks c (List.mem_cons_self c cs)
      have hcs' : ∀ x ∈ cs, x.1.length = 4 ∧ x.1 ≠ dataTag ∧ x.2.length < 4294967296 :=
        fun x hx => hchunks x (List.mem_cons_of_mem c hx)
      cases fuel with
      | zero => omega
      | succ f =>
          unfold findData
          rw [readBytes_exact data pre c.1
            (u32bytes c.2.length ++ (c.2 ++ (encodeChunks cs ++ (dataTag ++ (szb ++ post)))))
            4 pre.length
            (by simp [hdata, encodeChunks, encodeChunk, List.append_assoc]) rfl hc1]
          rw [readBytes_exact data (pre ++ c.1) (u32bytes c.2.length)
            (c.2 ++ (encodeChunks cs ++ (dataTag ++ (szb ++ post)))) 4 (pre.length + 4)
            (by simp [hdata, encodeChunks, encodeChunk, List.append_assoc])
            (by simp [hc1]) (by simp [u32bytes])]
          dsimp only
          rw [if_neg hcne, u32leL_u32bytes _ hclt]
          have hpos2 : pre.length + 4 + 4 + c.2.length =
              (pre ++ (c.1 ++ (u32bytes c.2.length ++ c.2))).length := by
            simp [hc1, u32bytes]
            omega
          have hrec := ih (pre ++ (c.1 ++ (u32bytes c.2.length ++ c.2))) post szb f hcs'
            (by simp [hdata, encodeChunks, encodeChunk, List.append_assoc])
            hszb (by simp at hfuel; omega)
          rw [show pre.length + 8 + c.2.length = pre.length + 4 + 4 + c.2.length from by omega,
            hpos2, hrec]
          simp only [Except.ok.injEq, Prod.mk.injEq, List.length_append,
            encodeChunks, encodeChunk, u32bytes, List.length_cons]
          constructor
          · simp [hc1]
            omega
          · trivial

/-- Full evaluation of `parseHeader` on a well-formed input: canonical
RIFF header, "fmt " chunk declaring header length 16 with a recognized
format tag, any number of well-formed non-"data" chunks, then the
"data" chunk.  The recorded first-sample position carries the uint32
truncation of the source. -/
lemma parseHeader_canonical (cs4 ft4 fb szb rest : List Nat)
    (chunks : List (List Nat × List Nat))
    (hcs : cs4.length = 4) (hft : ft4.length = 4) (hfb : fb.length = 20)
    (hszb : szb.length = 4)
    (h16 : u32leL (fb.take 4) = 16)
    (hvalid : isValidWavFormat (u16leL ((fb.drop 4).take 2)) = true)
    (hchunks : ∀ c ∈ chunks, c.1.length = 4 ∧ c.1 ≠ dataTag ∧ c.2.length < 4294967296) :
    parseHeader (riffTag ++ (cs4 ++ (ft4 ++ (fmtTag ++
        (fb ++ (encodeChunks chunks ++ (dataTag ++ (szb ++ rest)))))))) =
      .ok { riffHdr := ⟨riffTag, u32leL cs4, ft4⟩,
            riffChunkFmt :=
              ⟨u32leL (fb.take 4), u16leL ((fb.drop 4).take 2), u16leL ((fb.drop 6).take 2),
                u32leL ((fb.drop 8).take 4), u32leL ((fb.drop 12).take 4),
                u16leL ((fb.drop 16).take 2), u16leL ((fb.drop 18).take 2)⟩,
            firstSamplePos := (44 + (encodeChunks chunks).length) % 4294967296,
            dataBlockSize := u32leL szb } := by
  have hdata : riffTag ++ (cs4 ++ (ft4 ++ (fmtTag ++
      (fb ++ (encodeChunks chunks ++ (dataTag ++ (szb ++ rest))))))) =
      riffTag ++ (cs4 ++ (ft4 ++ (fmtTag ++
      (fb ++ (encodeChunks chunks ++ (dataTag ++ (szb ++ rest))))))) := rfl
  unfold parseHeader
  rw [parseRIFFHeader_valid _ [] cs4 ft4
    (fmtTag ++ (fb ++ (encodeChunks chunks ++ (dataTag ++ (szb ++ rest))))) 0
    (by simp) rfl hcs hft]
  dsimp only
  rw [readBytes_exact _ (riffTag ++ (cs4 ++ ft4)) fmtTag
    (fb ++ (encodeChunks chunks ++ (dataTag ++ (szb ++ rest)))) 4 (0 + 12)
    (by simp [List.append_assoc]) (by simp [riffTag, hcs, hft]) (by simp [fmtTag])]
  dsimp only
  rw [if_neg (by simp)]
  rw [readBytes_exact _ (riffTag ++ (cs4 ++ (ft4 ++ fmtTag))) fb
    (encodeChunks chunks ++ (dataTag ++ (szb ++ rest))) 20 (0 + 12 + 4)
    (by simp [List.append_assoc]) (by simp [riffTag, fmtTag, hcs, hft]) hfb]
  dsimp only
  rw [if_neg (by simp [hvalid])]
  rw [if_neg (by simp [h16])]
  dsimp only
  have hp : (0 : Nat) + 12 + 24 = (riffTag ++ (cs4 ++ (ft4 ++ (fmtTag ++ fb)))).length := by
    simp [riffTag, fmtTag, hcs, hft, hfb]
  rw [hp]
  rw [findData_skips _ chunks (riffTag ++ (cs4 ++ (ft4 ++ (fmtTag ++ fb)))) rest szb _
    hchunks (by simp [List.append_assoc]) hszb
    (by
      have h1 := encodeChunks_length_ge chunks
      simp [riffTag, fmtTag, dataTag, hcs, hft, hfb, hszb, List.append_assoc]
      omega)]
  dsimp only
  simp only [Except.ok.injEq, WavHeader.mk.injEq]
  refine ⟨trivial, trivial, ?_, trivial⟩
  have hlen36 : (riffTag ++ (cs4 ++ (ft4 ++ (fmtTag ++ fb)))).length = 36 := by
    simp [riffTag, fmtTag, hcs, hft, hfb]
  rw [hlen36]
  omega

/-- C5: for every valid WAVE input whose format chunk declares header
length 16 and whose "data" chunk immediately follows the format chunk,
parseHeader succeeds with FirstSamplePos = 44 and DataBlockSize equal
to the declared 32-bit little-endian size of the data chunk. -/
theorem parse_canonical_header (cs4 ft4 fb szb rest : List Nat)
    (hcs : cs4.length = 4) (hft : ft4.length = 4) (hfb : fb.length = 20)
    (hszb : szb.length = 4)
    (h16 : u32leL (fb.take 4) = 16)
    (hvalid : isValidWavFormat (u16leL ((fb.drop 4).take 2)) = true) :
    parseHeader (riffTag ++ (cs4 ++ (ft4 ++ (fmtTag ++ (fb ++ (dataTag ++ (szb ++ rest))))))) =
      .ok { riffHdr := ⟨riffTag, u32leL cs4, ft4⟩,
            riffChunkFmt :=
              ⟨u32leL (fb.take 4), u16leL ((fb.drop 4).take 2), u16leL ((fb.drop 6).take 2),
                u32leL ((fb.drop 8).take 4), u32leL ((fb.drop 12).take 4),
                u16leL ((fb.drop 16).take 2), u16leL ((fb.drop 18).take 2)⟩,
            firstSamplePos := 44,
            dataBlockSize := u32leL szb } := by
  have h := parseHeader_canonical cs4 ft4 fb szb rest [] hcs hft hfb hszb h16 hvalid
    (by simp)
  simpa [encodeChunks] using h

/-- Witness for C5: a concrete canonical PCM header (44100 Hz, mono,
16-bit) with a 4-byte data chunk. -/
theorem parse_canonical_header_witness :
    ([36, 0, 0, 0] : List Nat).length = 4 ∧
    u32leL (([16, 0, 0, 0, 1, 0, 1, 0, 68, 172, 0, 0, 136, 88, 1, 0, 2, 0, 16, 0] :
      List Nat).take 4) = 16 ∧
    parseHeader (riffTag ++ ([36, 0, 0, 0] ++ ([87, 65, 86, 69] ++ (fmtTag ++
        ([16, 0, 0, 0, 1, 0, 1, 0, 68, 172, 0, 0, 136, 88, 1, 0, 2, 0, 16, 0] ++
          (dataTag ++ ([4, 0, 0, 0] ++ [9, 9, 9, 9]))))))) =
      .ok { riffHdr := ⟨riffTag, u32leL [36, 0, 0, 0], [87, 65, 86, 69]⟩,
            riffChunkFmt :=
              ⟨u32leL (([16, 0, 0, 0, 1, 0, 1, 0, 68, 172, 0, 0, 136, 88, 1, 0, 2, 0, 16, 0] :
                  List Nat).take 4),
                u16leL ((([16, 0, 0, 0, 1, 0, 1, 0, 68, 172, 0, 0, 136, 88, 1, 0, 2, 0, 16, 0] :
                  List Nat).drop 4).take 2),
                u16leL ((([16, 0, 0, 0, 1, 0, 1, 0, 68, 172, 0, 0, 136, 88, 1, 0, 2, 0, 16, 0] :
                  List Nat).drop 6).take 2),
                u32leL ((([16, 0, 0, 0, 1, 0, 1, 0, 68, 172, 0, 0, 136, 88, 1, 0, 2, 0, 16, 0] :
                  List Nat).drop 8).take 4),
                u32leL ((([16, 0, 0, 0, 1, 0, 1, 0, 68, 172, 0, 0, 136, 88, 1, 0, 2, 0, 16, 0] :
                  List Nat).drop 12).take 4),
                u16leL ((([16, 0, 0, 0, 1, 0, 1, 0, 68, 172, 0, 0, 136, 88, 1, 0, 2, 0, 16, 0] :
                  List Nat).drop 16).take 2),
                u16leL ((([16, 0, 0, 0, 1, 0, 1, 0, 68, 172, 0, 0, 136, 88, 1, 0, 2, 0, 16, 0] :
                  List Nat).drop 18).take 2)⟩,
            firstSamplePos := 44,
            dataBlockSize := u32leL [4, 0, 0, 0] } :=
  ⟨rfl, by decide,
    parse_canonical_header [36, 0, 0, 0] [87, 65, 86, 69]
      [16, 0, 0, 0, 1, 0, 1, 0, 68, 172, 0, 0, 136, 88, 1, 0, 2, 0, 16, 0]
      [4, 0, 0, 0] [9, 9, 9, 9] rfl rfl rfl rfl (by decide) (by decide)⟩

/-- C6 (amended): for every input containing one or more non-"data"
chunks between the format chunk and the data chunk, parseHeader
succeeds, advancing past each such chunk by exactly the byte count
declared in its 32-bit little-endian size field without interpreting
its contents; FirstSamplePos equals the byte position immediately
after the data chunk header (44 plus the total encoded length of the
skipped chunks) reduced modulo 2^32, since the source truncates the
int64 seek position with `uint32(pos)`.  It points at the first byte
after the data chunk header exactly when that position is below
2^32. -/
theorem parse_skips_unknown_chunks (cs4 ft4 fb szb rest : List Nat)
    (chunks : List (List Nat × List Nat))
    (hcs : cs4.length = 4) (hft : ft4.length = 4) (hfb : fb.length = 20)
    (hszb : szb.length = 4)
    (h16 : u32leL (fb.take 4) = 16)
    (hvalid : isValidWavFormat (u16leL ((fb.drop 4).take 2)) = true)
    (hchunks : ∀ c ∈ chunks, c.1.length = 4 ∧ c.1 ≠ dataTag ∧ c.2.length < 4294967296) :
    parseHeader (riffTag ++ (cs4 ++ (ft4 ++ (fmtTag ++
        (fb ++ (encodeChunks chunks ++ (dataTag ++ (szb ++ rest)))))))) =
      .ok { riffHdr := ⟨riffTag, u32leL cs4, ft4⟩,
            riffChunkFmt :=
              ⟨u32leL (fb.take 4), u16leL ((fb.drop 4).take 2), u16leL ((fb.drop 6).take 2),
                u32leL ((fb.drop 8).take 4), u32leL ((fb.drop 12).take 4),
                u16leL ((fb.drop 16).take 2), u16leL ((fb.drop 18).take 2)⟩,
            firstSamplePos := (44 + (encodeChunks chunks).length) % 4294967296,
            dataBlockSize := u32leL szb } :=
  parseHeader_canonical cs4 ft4 fb szb rest chunks hcs hft hfb hszb h16 hvalid hchunks

/-- Witness for C6 (amended): one "LIST" chunk with a 2-byte payload
between the format chunk and the data chunk; FirstSamplePos becomes
(44 + 10) % 2^32 = 54. -/
theorem parse_skips_unknown_chunks_witness :
    (∀ c ∈ ([([76, 73, 83, 84], [7, 7])] : List (List Nat × List Nat)),
      c.1.length = 4 ∧ c.1 ≠ dataTag ∧ c.2.length < 4294967296) ∧
    parseHeader (riffTag ++ ([46, 0, 0, 0] ++ ([87, 65, 86, 69] ++ (fmtTag ++
        ([16, 0, 0, 0, 1, 0, 1, 0, 68, 172, 0, 0, 136, 88, 1, 0, 2, 0, 16, 0] ++
          (encodeChunks [([76, 73, 83, 84], [7, 7])] ++
            (dataTag ++ ([4, 0, 0, 0] ++ [9, 9, 9, 9])))))))) =
      .ok { riffHdr := ⟨riffTag, u32leL [46, 0, 0, 0], [87, 65, 86, 69]⟩,
            riffChunkFmt :=
              ⟨u32leL (([16, 0, 0, 0, 1, 0, 1, 0, 68, 172, 0, 0, 136, 88, 1, 0, 2, 0, 16, 0] :
                  List Nat).take 4),
                u16leL ((([16, 0, 0, 0, 1, 0, 1, 0, 68, 172, 0, 0, 136, 88, 1, 0, 2, 0, 16, 0] :
                  List Nat).drop 4).take 2),
                u16leL ((([16, 0, 0, 0, 1, 0, 1, 0, 68, 172, 0, 0, 136, 88, 1, 0, 2, 0, 16, 0] :
                  List Nat).drop 6).take 2),
                u32leL ((([16, 0, 0, 0, 1, 0, 1, 0, 68, 172, 0, 0, 136, 88, 1, 0, 2, 0, 16, 0] :
                  List Nat).drop 8).take 4),
                u32leL ((([16, 0, 0, 0, 1, 0, 1, 0, 68, 172, 0, 0, 136, 88, 1, 0, 2, 0, 16, 0] :
                  List Nat).drop 12).take 4),
                u16leL ((([16, 0, 0, 0, 1, 0, 1, 0, 68, 172, 0, 0, 136, 88, 1, 0, 2, 0, 16, 0] :
                  List Nat).drop 16).take 2),
                u16leL ((([16, 0, 0, 0, 1, 0, 1, 0, 68, 172, 0, 0, 136, 88, 1, 0, 2, 0, 16, 0] :
                  List Nat).drop 18).take 2)⟩,
            firstSamplePos :=
              (44 + (encodeChunks [([76, 73, 83, 84], [7, 7])]).length) % 4294967296,
            dataBlockSize := u32leL [4, 0, 0, 0] } :=
  ⟨by decide,
    parse_skips_unknown_chunks [46, 0, 0, 0] [87, 65, 86, 69]
      [16, 0, 0, 0, 1, 0, 1, 0, 68, 172, 0, 0, 136, 88, 1, 0, 2, 0, 16, 0]
      [4, 0, 0, 0] [9, 9, 9, 9] [([76, 73, 83, 84], [7, 7])]
      rfl rfl rfl rfl (by decide) (by decide) (by decide)⟩

lemma encodeChunks_one_len (tag p : List Nat) :
    (encodeChunks [(tag, p)]).length = tag.length + 4 + p.length := by
  simp only [encodeChunks, encodeChunk, u32bytes, List.append_nil, List.length_append,
    List.length_cons, List.length_nil]
  omega

/-- A single skipped chunk whose payload has 4294967295 bytes pushes
the data chunk past 4 GiB; the stored position is
(44 + 8 + 4294967295) % 2^32 = 51.  The payload is kept abstract here
so the proof never evaluates a concrete 4-billion-element list. -/
lemma parseHeader_one_big_chunk (p : List Nat) (hp : p.length = 4294967295) :
    parseHeader (riffTag ++ ([4, 0, 0, 0] ++ ([87, 65, 86, 69] ++ (fmtTag ++
        ([16, 0, 0, 0, 1, 0, 1, 0, 68, 172, 0, 0, 136, 88, 1, 0, 2, 0, 16, 0] ++
          (encodeChunks [([76, 73, 83, 84], p)] ++
            (dataTag ++ ([0, 0, 0, 0] ++ [])))))))) =
      .ok { riffHdr := ⟨riffTag, u32leL [4, 0, 0, 0], [87, 65, 86, 69]⟩,
            riffChunkFmt :=
              ⟨u32leL (([16, 0, 0, 0, 1, 0, 1, 0, 68, 172, 0, 0, 136, 88, 1, 0, 2, 0, 16, 0] :
                  List Nat).take 4),
                u16leL ((([16, 0, 0, 0, 1, 0, 1, 0, 68, 172, 0, 0, 136, 88, 1, 0, 2, 0, 16, 0] :
                  List Nat).drop 4).take 2),
                u16leL ((([16, 0, 0, 0, 1, 0, 1, 0, 68, 172, 0, 0, 136, 88, 1, 0, 2, 0, 16, 0] :
                  List Nat).drop 6).take 2),
                u32leL ((([16, 0, 0, 0, 1, 0, 1, 0, 68, 172, 0, 0, 136, 88, 1, 0, 2, 0, 16, 0] :
                  List Nat).drop 8).take 4),
                u32leL ((([16, 0, 0, 0, 1, 0, 1, 0, 68, 172, 0, 0, 136, 88, 1, 0, 2, 0, 16, 0] :
                  List Nat).drop 12).take 4),
                u16leL ((([16, 0, 0, 0, 1, 0, 1, 0, 68, 172, 0, 0, 136, 88, 1, 0, 2, 0, 16, 0] :
                  List Nat).drop 16).take 2),
                u16leL ((([16, 0, 0, 0, 1, 0, 1, 0, 68, 172, 0, 0, 136, 88, 1, 0, 2, 0, 16, 0] :
                  List Nat).drop 18).take 2)⟩,
            firstSamplePos := 51,
            dataBlockSize := u32leL [0, 0, 0, 0] } := by
  have h := parseHeader_canonical [4, 0, 0, 0] [87, 65, 86, 69]
    [16, 0, 0, 0, 1, 0, 1, 0, 68, 172, 0, 0, 136, 88, 1, 0, 2, 0, 16, 0]
    [0, 0, 0, 0] [] [([76, 73, 83, 84], p)]
    rfl rfl rfl rfl (by decide) (by decide)
    (by
      intro c hc
      simp only [List.mem_singleton] at hc
      subst hc
      exact ⟨rfl, show ([76, 73, 83, 84] : List Nat) ≠ dataTag by decide,
        show p.length < 4294967296 by rw [hp]; norm_num⟩)
  rw [h, encodeChunks_one_len [76, 73, 83, 84] p, hp]
  norm_num

/-- C6 counterexample: one "LIST" chunk with a 4294967295-byte payload
puts the first byte after the data chunk header at position
44 + 8 + 4294967295 = 4294967347 ≥ 2^32, but the parser stores
`uint32(pos)` and returns FirstSamplePos = 51, which no longer points
at the first byte after the data chunk header. -/
theorem first_sample_pos_wraps :
    parseHeader (riffTag ++ ([4, 0, 0, 0] ++ ([87, 65, 86, 69] ++ (fmtTag ++
        ([16, 0, 0, 0, 1, 0, 1, 0, 68, 172, 0, 0, 136, 88, 1, 0, 2, 0, 16, 0] ++
          (encodeChunks [([76, 73, 83, 84], List.replicate 4294967295 0)] ++
            (dataTag ++ ([0, 0, 0, 0] ++ [])))))))) =
      .ok { riffHdr := ⟨riffTag, u32leL [4, 0, 0, 0], [87, 65, 86, 69]⟩,
            riffChunkFmt :=
              ⟨u32leL (([16, 0, 0, 0, 1, 0, 1, 0, 68, 172, 0, 0, 136, 88, 1, 0, 2, 0, 16, 0] :
                  List Nat).take 4),
                u16leL ((([16, 0, 0, 0, 1, 0, 1, 0, 68, 172, 0, 0, 136, 88, 1, 0, 2, 0, 16, 0] :
                  List Nat).drop 4).take 2),
                u16leL ((([16, 0, 0, 0, 1, 0, 1, 0, 68, 172, 0, 0, 136, 88, 1, 0, 2, 0, 16, 0] :
                  List Nat).drop 6).take 2),
                u32leL ((([16, 0, 0, 0, 1, 0, 1, 0, 68, 172, 0, 0, 136, 88, 1, 0, 2, 0, 16, 0] :
                  List Nat).drop 8).take 4),
                u32leL ((([16, 0, 0, 0, 1, 0, 1, 0, 68, 172, 0, 0, 136, 88, 1, 0, 2, 0, 16, 0] :
                  List Nat).drop 12).take 4),
                u16leL ((([16, 0, 0, 0, 1, 0, 1, 0, 68, 172, 0, 0, 136, 88, 1, 0, 2, 0, 16, 0] :
                  List Nat).drop 16).take 2),
                u16leL ((([16, 0, 0, 0, 1, 0, 1, 0, 68, 172, 0, 0, 136, 88, 1, 0, 2, 0, 16, 0] :
                  List Nat).drop 18).take 2)⟩,
            firstSamplePos := 51,
            dataBlockSize := u32leL [0, 0, 0, 0] } ∧
    (51 : Nat) ≠
      44 + (encodeChunks [([76, 73, 83, 84], List.replicate 4294967295 0)]).length := by
  constructor
  · exact parseHeader_one_big_chunk (List.replicate 4294967295 0)
      (List.length_replicate 4294967295 0)
  · have hl := encodeChunks_one_len [76, 73, 83, 84] (List.replicate 4294967295 0)
    rw [List.length_replicate] at hl
    rw [hl]
    norm_num

/-- Witness for C8: signature "RIFX" and chunk tag "fmt_" (underscore),
each padded to a complete input. -/
theorem signature_and_fmt_tag_errors_witness :
    (([82, 73, 70, 88] : List Nat).length = 4 ∧ ([0, 0, 0, 0] : List Nat).length = 4 ∧
      ([87, 65, 86, 69] : List Nat).length = 4 ∧ ([82, 73, 70, 88] : List Nat) ≠ riffTag ∧
      parseHeader ([82, 73, 70, 88] ++ ([0, 0, 0, 0] ++ ([87, 65, 86, 69] ++ []))) =
        .error (.invalidSignature [82, 73, 70, 88])) ∧
    (([102, 109, 116, 95] : List Nat) ≠ fmtTag ∧
      parseHeader (riffTag ++ ([0, 0, 0, 0] ++ ([87, 65, 86, 69] ++ ([102, 109, 116, 95] ++ [])))) =
        .error (.unexpectedChunk [102, 109, 116, 95])) :=
  ⟨⟨rfl, rfl, rfl, by decide,
      signature_and_fmt_tag_errors.1 [82, 73, 70, 88] [0, 0, 0, 0] [87, 65, 86, 69] []
        rfl rfl rfl (by decide)⟩,
    ⟨by decide,
      signature_and_fmt_tag_errors.2 [0, 0, 0, 0] [87, 65, 86, 69] [102, 109, 116, 95] []
        rfl rfl rfl (by decide)⟩⟩

/-- The chunk walk can only fail with a read failure; it never produces
an UnsupportedFormat error. -/
lemma findData_not_unsupported (data : List Nat) (g : Nat) :
    ∀ fuel pos, findData data fuel pos ≠ .error (.unsupportedFormat g) := by
  intro fuel
  induction fuel with
  | zero => intro pos h; exact absurd h (by simp [findData])
  | succ f ih =>
      intro pos
      unfold findData
      cases h1 : readBytes data pos 4 with
      | none => simp
      | some tag =>
          cases h2 : readBytes data (pos + 4) 4 with
          | none => simp
          | some szb =>
              dsimp only
              by_cases ht : tag = dataTag
              · simp [ht]
              · rw [if_neg ht]
                exact ih _

/-- C2 (amended): the recognized format set is {PCM (1), IEEE float
(3), A-law (6), mu-law (7)} — extensible (0xFFFE) is NOT accepted, its
constant being declared but absent from the validity list.  On an input
reaching the format check, parseHeader fails with UnsupportedFormat
(carrying the tag) iff the tag is outside that four-element set, and
for a tag inside the set no UnsupportedFormat error can arise from the
rest of the parse. -/
theorem unsupported_format_check (cs4 ft4 fb rest : List Nat)
    (hcs : cs4.length = 4) (hft : ft4.length = 4) (hfb : fb.length = 20) :
    (∀ f : Nat, isValidWavFormat f = true ↔ (f = 1 ∨ f = 3 ∨ f = 6 ∨ f = 7)) ∧
    (isValidWavFormat (u16leL ((fb.drop 4).take 2)) = false →
      parseHeader (riffTag ++ (cs4 ++ (ft4 ++ (fmtTag ++ (fb ++ rest))))) =
        .error (.unsupportedFormat (u16leL ((fb.drop 4).take 2)))) ∧
    (isValidWavFormat (u16leL ((fb.drop 4).take 2)) = true →
      ∀ g : Nat, parseHeader (riffTag ++ (cs4 ++ (ft4 ++ (fmtTag ++ (fb ++ rest))))) ≠
        .error (.unsupportedFormat g)) := by
  refine ⟨?_, ?_, ?_⟩
  · intro f
    simp only [isValidWavFormat, WaveFormatMULAW, WaveFormatALAW, WaveFormatIEEEFloat,
      WaveFormatPCM, List.any_cons, List.any_nil, Bool.or_false, Bool.or_eq_true,
      beq_iff_eq]
    omega
  all_goals
    (unfold parseHeader
     rw [parseRIFFHeader_valid _ [] cs4 ft4 (fmtTag ++ (fb ++ rest)) 0 (by simp) rfl hcs hft]
     dsimp only
     rw [readBytes_exact _ (riffTag ++ (cs4 ++ ft4)) fmtTag (fb ++ rest) 4 (0 + 12)
       (by simp [List.append_assoc]) (by simp [riffTag, hcs, hft]) (by simp [fmtTag])]
     dsimp only
     rw [if_neg (by simp)]
     rw [readBytes_exact _ (riffTag ++ (cs4 ++ (ft4 ++ fmtTag))) fb rest 20 (0 + 12 + 4)
       (by simp [List.append_assoc]) (by simp [riffTag, fmtTag, hcs, hft]) hfb]
     dsimp only)
  · intro hfalse
    rw [if_pos (by simp [hfalse])]
  · intro hvalid g
    rw [if_neg (by simp [hvalid])]
    by_cases h16 : u32leL (fb.take 4) = 16
    · rw [if_neg (by simp [h16])]
      dsimp only
      cases hfd : findData (riffTag ++ (cs4 ++ (ft4 ++ (fmtTag ++ (fb ++ rest)))))
          ((riffTag ++ (cs4 ++ (ft4 ++ (fmtTag ++ (fb ++ rest))))).length + 1)
          (0 + 12 + 24) with
      | error e =>
          dsimp only
          intro hc
          injection hc with he
          rw [he] at hfd
          exact findData_not_unsupported _ g _ _ hfd
      | ok p =>
          obtain ⟨p1, p2⟩ := p
          dsimp only
          intro hc
          simp at hc
    · rw [if_pos h16]
      cases hre : readBytes (riffTag ++ (cs4 ++ (ft4 ++ (fmtTag ++ (fb ++ rest)))))
          (0 + 12 + 24) 2 with
      | none =>
          dsimp only
          simp
      | some eb =>
          dsimp only
          cases hfd : findData (riffTag ++ (cs4 ++ (ft4 ++ (fmtTag ++ (fb ++ rest)))))
              ((riffTag ++ (cs4 ++ (ft4 ++ (fmtTag ++ (fb ++ rest))))).length + 1)
              (0 + 12 + 24 + 2 + u16leL eb) with
          | error e =>
              dsimp only
              intro hc
              injection hc with he
              rw [he] at hfd
              exact findData_not_unsupported _ g _ _ hfd
          | ok p =>
              obtain ⟨p1, p2⟩ := p
              dsimp only
              intro hc
              simp at hc

/-- C2 counterexample: a complete, otherwise well-formed input whose
format tag is 0xFFFE = 65534 (extensible) is rejected with
UnsupportedFormat, while the claim lists extensible among the accepted
tags. -/
theorem extensible_format_rejected :
    parseHeader (riffTag ++ ([4, 0, 0, 0] ++ ([87, 65, 86, 69] ++ (fmtTag ++
        ([16, 0, 0, 0, 254, 255, 1, 0, 68, 172, 0, 0, 136, 88, 1, 0, 2, 0, 16, 0] ++
          (dataTag ++ ([0, 0, 0, 0] ++ []))))))) =
      .error (.unsupportedFormat 65534) ∧
    (65534 : Nat) = WaveFormatExtensible := by
  exact ⟨rfl, rfl⟩

/-- Witness for C2 (amended) at a concrete rejected tag (0xFFFE). -/
theorem unsupported_format_check_witness :
    isValidWavFormat (u16leL ((([16, 0, 0, 0, 254, 255, 1, 0, 68, 172, 0, 0, 136, 88,
        1, 0, 2, 0, 16, 0] : List Nat).drop 4).take 2)) = false ∧
    parseHeader (riffTag ++ ([4, 0, 0, 0] ++ ([87, 65, 86, 69] ++ (fmtTag ++
        ([16, 0, 0, 0, 254, 255, 1, 0, 68, 172, 0, 0, 136, 88, 1, 0, 2, 0, 16, 0] ++
          []))))) =
      .error (.unsupportedFormat (u16leL ((([16, 0, 0, 0, 254, 255, 1, 0, 68, 172, 0, 0,
        136, 88, 1, 0, 2, 0, 16, 0] : List Nat).drop 4).take 2))) :=
  ⟨by decide,
    (unsupported_format_check [4, 0, 0, 0] [87, 65, 86, 69]
      [16, 0, 0, 0, 254, 255, 1, 0, 68, 172, 0, 0, 136, 88, 1, 0, 2, 0, 16, 0] []
      rfl rfl rfl).2.1 (by decide)⟩

/-! ### Header diff consumer (`cmd/wavediff`, `diffHeaders`)

Each `writeDiff` call of the Go code reports one differing field (or
one differing byte of a 4-byte tag array); the function returns
`wroteHeader`, which is true iff at least one difference was written.
`main` exits non-zero iff that result is true.  The reported lines are
modelled as a list of field markers, in program order. -/

/-- One reported difference line of `diffHeaders`. -/
inductive DiffField
  | riffIdentByte (i : Nat)
  | chunkSize
  | fileTypeByte (i : Nat)
  | lengthOfHeader
  | audioFormat
  | numChannels
  | sampleRate
  | bytesPerSec
  | bytesPerBloc
  | bitsPerSample
  | firstSamplePos
  | dataBlockSize
deriving DecidableEq

/-- The two `for i, b := range tag` loops over `[4]byte` arrays,
unrolled: one report per differing byte index. -/
def byteDiffs (mk : Nat → DiffField) (xs ys : List Nat) : List DiffField :=
  (if xs.getD 0 0 = ys.getD 0 0 then [] else [mk 0]) ++
    (if xs.getD 1 0 = ys.getD 1 0 then [] else [mk 1]) ++
    (if xs.getD 2 0 = ys.getD 2 0 then [] else [mk 2]) ++
    (if xs.getD 3 0 = ys.getD 3 0 then [] else [mk 3])

/-- One scalar-field comparison with its `writeDiff` call. -/
def fieldDiff (f : DiffField) (a b : Nat) : List DiffField :=
  if a = b then [] else [f]

/-- Embedding of `diffHeaders`: compare every field in program order,
collecting one report per difference; the Bool result is `wroteHeader`
(true iff anything was reported), which drives the process exit
status. -/
def diffHeaders (h1 h2 : WavHeader) : List DiffField × Bool :=
  let ds :=
    byteDiffs DiffField.riffIdentByte h1.riffHdr.ident h2.riffHdr.ident ++
      fieldDiff .chunkSize h1.riffHdr.chunkSize h2.riffHdr.chunkSize ++
      byteDiffs DiffField.fileTypeByte h1.riffHdr.fileType h2.riffHdr.fileType ++
      fieldDiff .lengthOfHeader h1.riffChunkFmt.lengthOfHeader h2.riffChunkFmt.lengthOfHeader ++
      fieldDiff .audioFormat h1.riffChunkFmt.audioFormat h2.riffChunkFmt.audioFormat ++
      fieldDiff .numChannels h1.riffChunkFmt.numChannels h2.riffChunkFmt.numChannels ++
      fieldDiff .sampleRate h1.riffChunkFmt.sampleRate h2.riffChunkFmt.sampleRate ++
      fieldDiff .bytesPerSec h1.riffChunkFmt.bytesPerSec h2.riffChunkFmt.bytesPerSec ++
      fieldDiff .bytesPerBloc h1.riffChunkFmt.bytesPerBloc h2.riffChunkFmt.bytesPerBloc ++
      fieldDiff .bitsPerSample h1.riffChunkFmt.bitsPerSample h2.riffChunkFmt.bitsPerSample ++
      fieldDiff .firstSamplePos h1.firstSamplePos h2.firstSamplePos ++
      fieldDiff .dataBlockSize h1.dataBlockSize h2.dataBlockSize
  (ds, !ds.isEmpty)

/-- C9: comparing a header with itself reports nothing and returns
false (zero exit status); two headers that differ only in the
sample-rate field produce exactly one reported difference line. -/
theorem diff_headers_spec :
    (∀ h : WavHeader, diffHeaders h h = ([], false)) ∧
    (∀ h1 h2 : WavHeader,
      h1.riffHdr = h2.riffHdr →
      h1.riffChunkFmt.lengthOfHeader = h2.riffChunkFmt.lengthOfHeader →
      h1.riffChunkFmt.audioFormat = h2.riffChunkFmt.audioFormat →
      h1.riffChunkFmt.numChannels = h2.riffChunkFmt.numChannels →
      h1.riffChunkFmt.sampleRate ≠ h2.riffChunkFmt.sampleRate →
      h1.riffChunkFmt.bytesPerSec = h2.riffChunkFmt.bytesPerSec →
      h1.riffChunkFmt.bytesPerBloc = h2.riffChunkFmt.bytesPerBloc →
      h1.riffChunkFmt.bitsPerSample = h2.riffChunkFmt.bitsPerSample →
      h1.firstSamplePos = h2.firstSamplePos →
      h1.dataBlockSize = h2.dataBlockSize →
      diffHeaders h1 h2 = ([DiffField.sampleRate], true)) := by
  constructor
  · intro h
    simp [diffHeaders, byteDiffs, fieldDiff]
  · intro h1 h2 hhdr hlen haf hnc hsr hbs hbb hbps hfsp hdbs
    simp [diffHeaders, byteDiffs, fieldDiff, hhdr, hlen, haf, hnc, hsr, hbs, hbb,
      hbps, hfsp, hdbs]

/-- Witness for C9: two concrete headers identical except for sample
rates 44100 vs 48000. -/
theorem diff_headers_spec_witness :
    diffHeaders
        ⟨⟨[82, 73, 70, 70], 36, [87, 65, 86, 69]⟩, ⟨16, 1, 1, 44100, 88200, 2, 16⟩, 44, 4⟩
        ⟨⟨[82, 73, 70, 70], 36, [87, 65, 86, 69]⟩, ⟨16, 1, 1, 44100, 88200, 2, 16⟩, 44, 4⟩ =
      ([], false) ∧
    (44100 : Nat) ≠ 48000 ∧
    diffHeaders
        ⟨⟨[82, 73, 70, 70], 36, [87, 65, 86, 69]⟩, ⟨16, 1, 1, 44100, 88200, 2, 16⟩, 44, 4⟩
        ⟨⟨[82, 73, 70, 70], 36, [87, 65, 86, 69]⟩, ⟨16, 1, 1, 48000, 88200, 2, 16⟩, 44, 4⟩ =
      ([DiffField.sampleRate], true) :=
  ⟨diff_headers_spec.1
      ⟨⟨[82, 73, 70, 70], 36, [87, 65, 86, 69]⟩, ⟨16, 1, 1, 44100, 88200, 2, 16⟩, 44, 4⟩,
    by decide,
    diff_headers_spec.2
      ⟨⟨[82, 73, 70, 70], 36, [87, 65, 86, 69]⟩, ⟨16, 1, 1, 44100, 88200, 2, 16⟩, 44, 4⟩
      ⟨⟨[82, 73, 70, 70], 36, [87, 65, 86, 69]⟩, ⟨16, 1, 1, 48000, 88200, 2, 16⟩, 44, 4⟩
      rfl rfl rfl rfl (by decide) rfl rfl rfl rfl rfl⟩

end Waveparser
